import Mathlib

/-!
Shallow embedding of the divine-web social-metrics hooks:
`useVideoSocialMetrics` / `useVideoUserInteractions` (src/unnamed/part_001),
`useFollowing` (src/unnamed/part_000), `useFollowers`
(src/src/hooks/useFollowers.ts), and `supportsNIP50` plus the relay
constants (src/unnamed/part_001, second document).

The external relay client (`nostr.query`) is modelled as a function from
the issued filter list to `Except String (List Event)`: `Except.error`
stands for any failure of the underlying query (network error, timeout,
abort, thrown exception), which the hooks catch.  JavaScript `Map` and
`Set` are modelled as association lists / lists with first-occurrence
insertion order, matching their iteration-order semantics.  JavaScript
string truthiness (`undefined` and `""` are falsy) is modelled explicitly.
-/

/-- A Nostr event as consumed by the hooks: `id`, `pubkey`, `kind`,
`created_at`, `content`, `tags` (a list of string lists). -/
structure Event where
  id : String
  pubkey : String
  kind : Nat
  created_at : Nat
  content : String
  tags : List (List String)
deriving Repr, DecidableEq

/-- A Nostr relay filter as built by the hooks.  Tag filters `#e`, `#E`,
`#a`, `#A`, `#p` are separate optional fields. -/
structure NostrFilter where
  kinds : List Nat
  authors : Option (List String) := none
  eTags : Option (List String) := none
  bigETags : Option (List String) := none
  aTags : Option (List String) := none
  bigATags : Option (List String) := none
  pTags : Option (List String) := none
  limit : Option Nat := none
deriving Repr, DecidableEq

/-- The relay query client, external to this repository: takes the filter
list passed to `nostr.query` and yields the returned events, or an error
(network failure, timeout, abort). -/
def Relay : Type := List NostrFilter → Except String (List Event)

/-- JavaScript truthiness of an optional string: `undefined` (`none`) and
the empty string are falsy. -/
def truthyStr : Option String → Bool
  | none => false
  | some s => !(s == "")

/-- One `map.set(k, v)` step on a JavaScript `Map` modelled as an
association list: an existing key keeps its position and gets the new
value; a new key is appended. -/
def mapSet (m : List (String × Event)) (k : String) (v : Event) :
    List (String × Event) :=
  if m.any (fun p => p.1 == k) then
    m.map (fun p => if p.1 == k then (k, v) else p)
  else m ++ [(k, v)]

/-- The `uniqueEvents` construction shared by both hooks: insert every event
into a `Map` keyed by `event.id`, then take `Array.from(map.values())`. -/
def dedupeById (events : List Event) : List Event :=
  (events.foldl (fun m e => mapSet m e.id e) []).map Prod.snd

/-- The `VideoSocialMetrics` result struct. -/
structure VideoSocialMetrics where
  likeCount : Nat
  repostCount : Nat
  viewCount : Nat
  commentCount : Nat
deriving Repr, DecidableEq

/-- The zero snapshot returned on error and for empty input. -/
def zeroMetrics : VideoSocialMetrics := ⟨0, 0, 0, 0⟩

/-- The positive-reaction allow-list test from both hooks:
`event.content === '+' || event.content === '❤️' || event.content === '👍'`. -/
def isPositiveReactionContent (e : Event) : Bool :=
  e.content == "+" || e.content == "❤️" || e.content == "👍"

/-- One iteration of the `switch (event.kind)` counting loop of
`useVideoSocialMetrics`. -/
def classifyEvent (acc : VideoSocialMetrics) (e : Event) : VideoSocialMetrics :=
  if e.kind == 7 then
    if isPositiveReactionContent e then
      { acc with likeCount := acc.likeCount + 1 }
    else acc
  else if e.kind == 6 then
    { acc with repostCount := acc.repostCount + 1 }
  else if e.kind == 1 || e.kind == 1111 then
    { acc with commentCount := acc.commentCount + 1 }
  else if e.kind == 9735 then
    { acc with viewCount := acc.viewCount + 1 }
  else acc

/-- The counting loop of `useVideoSocialMetrics` over the deduplicated
event list. -/
def computeMetrics (events : List Event) : VideoSocialMetrics :=
  events.foldl classifyEvent zeroMetrics

/-- The addressable reference `videoPubkey && vineId ? "34236:..." : null`,
with JavaScript truthiness on the two optional strings. -/
def mkAddressableRef (videoPubkey vineId : Option String) : Option String :=
  match videoPubkey, vineId with
  | some vp, some vi =>
      if vp == "" || vi == "" then none
      else some ("34236:" ++ vp ++ ":" ++ vi)
  | _, _ => none

/-- The filter list built by `useVideoSocialMetrics`: `#e` and `#E`
filters for the video id, plus `#a`/`#A` filters when the addressable
reference is constructible; all kinds `[1, 6, 7, 1111, 9735]`, limit 500. -/
def metricsFilters (videoId : String) (addressableRef : Option String) :
    List NostrFilter :=
  [ { kinds := [1, 6, 7, 1111, 9735], eTags := some [videoId], limit := some 500 },
    { kinds := [1, 6, 7, 1111, 9735], bigETags := some [videoId], limit := some 500 } ]
  ++ match addressableRef with
     | some r =>
       [ { kinds := [1, 6, 7, 1111, 9735], aTags := some [r], limit := some 500 },
         { kinds := [1, 6, 7, 1111, 9735], bigATags := some [r], limit := some 500 } ]
     | none => []

/-- The `queryFn` of `useVideoSocialMetrics`: build filters, query the
relay, deduplicate by id, count; on any failure return the zero snapshot. -/
def socialMetricsQueryFn (relay : Relay) (videoId : String)
    (videoPubkey vineId : Option String) : VideoSocialMetrics :=
  match relay (metricsFilters videoId (mkAddressableRef videoPubkey vineId)) with
  | Except.error _ => zeroMetrics
  | Except.ok allEvents => computeMetrics (dedupeById allEvents)

/-- The `InteractionRecord` result of `useVideoUserInteractions`. -/
structure InteractionRecord where
  hasLiked : Bool
  hasReposted : Bool
  likeEventId : Option String
  repostEventId : Option String
deriving Repr, DecidableEq

/-- The all-false/null record returned on missing viewer and on error. -/
def emptyInteractions : InteractionRecord := ⟨false, false, none, none⟩

/-- The filter list built by `useVideoUserInteractions`: the viewer's
kind 6/7 events with `#e` on the video id, plus a `#a` filter when the
addressable reference is constructible; limit 10. -/
def interactionFilters (videoId upk : String) (addressableRef : Option String) :
    List NostrFilter :=
  [ { kinds := [6, 7], authors := some [upk], eTags := some [videoId], limit := some 10 } ]
  ++ match addressableRef with
     | some r =>
       [ { kinds := [6, 7], authors := some [upk], aTags := some [r], limit := some 10 } ]
     | none => []

/-- The dependent second filter of `useVideoUserInteractions`: the
viewer's kind 5 delete events whose `#e` tags hit the ids found in the
first stage; limit 20. -/
def deleteNostrFilter (upk : String) (ids : List String) : NostrFilter :=
  { kinds := [5], authors := some [upk], eTags := some ids, limit := some 20 }

/-- One `Set.add` step on a JavaScript `Set` modelled as a list in
first-occurrence insertion order. -/
def setAdd (s : List String) (x : String) : List String :=
  if s.contains x then s else s ++ [x]

/-- One tag of a delete event: `if (tag[0] === 'e' && tag[1])` add
`tag[1]` to the `deletedEventIds` set. -/
def addTagDeleted (s : List String) (t : List String) : List String :=
  if t.get? 0 == some "e" && truthyStr (t.get? 1) then
    setAdd s ((t.get? 1).getD "")
  else s

/-- The inner `deleteEvent.tags.forEach` loop of
`useVideoUserInteractions`. -/
def addEventDeleted (s : List String) (de : Event) : List String :=
  de.tags.foldl addTagDeleted s

/-- The `deletedEventIds` construction: for every delete event, every tag
with `tag[0] === 'e'` and truthy `tag[1]` adds `tag[1]` to the set. -/
def collectDeletedIds (deleteEvents : List Event) : List String :=
  deleteEvents.foldl addEventDeleted []

/-- One iteration of the final loop of `useVideoUserInteractions`: skip
events whose id is in `deletedEventIds`; a positive kind 7 reaction sets
`hasLiked`/`likeEventId`; a kind 6 repost sets
`hasReposted`/`repostEventId` (two independent `if`s, as in the source). -/
def interactionStep (deletedIds : List String) (acc : InteractionRecord)
    (e : Event) : InteractionRecord :=
  if deletedIds.contains e.id then acc
  else
    let acc1 :=
      if e.kind == 7 && isPositiveReactionContent e then
        { acc with hasLiked := true, likeEventId := some e.id }
      else acc
    if e.kind == 6 then
      { acc1 with hasReposted := true, repostEventId := some e.id }
    else acc1

/-- The final fold of `useVideoUserInteractions` over the deduplicated
events, netting out deleted ids. -/
def processInteractions (events : List Event) (deletedIds : List String) :
    InteractionRecord :=
  events.foldl (interactionStep deletedIds) emptyInteractions

/-- The `queryFn` of `useVideoUserInteractions`: short-circuit on a falsy
viewer pubkey; query interactions, deduplicate, query delete events with a
filter built from the stage-one ids, net out deletions; on any failure
return the empty record. -/
def interactionsQueryFn (relay : Relay) (videoId : String)
    (userPubkey videoPubkey vineId : Option String) : InteractionRecord :=
  match userPubkey with
  | none => emptyInteractions
  | some upk =>
    if upk == "" then emptyInteractions
    else
      match relay (interactionFilters videoId upk
          (mkAddressableRef videoPubkey vineId)) with
      | Except.error _ => emptyInteractions
      | Except.ok allEvents =>
        match relay [deleteNostrFilter upk ((dedupeById allEvents).map Event.id)] with
        | Except.error _ => emptyInteractions
        | Except.ok deleteEvents =>
          processInteractions (dedupeById allEvents)
            (collectDeletedIds deleteEvents)

/-- The most recent contact-list event: models
`events.sort((a, b) => b.created_at - a.created_at)[0]` — a stable
descending sort whose head is the first element with maximal
`created_at`. -/
def mostRecent (e : Event) (es : List Event) : Event :=
  es.foldl (fun best x => if best.created_at < x.created_at then x else best) e

/-- The tag extraction of `useFollowing`:
`tags.filter(tag => tag[0] === 'p').filter(tag => tag[1]).map(tag => tag[1])`. -/
def extractFollowing (contactList : Event) : List String :=
  (((contactList.tags.filter (fun t => t.get? 0 == some "p")).filter
      (fun t => truthyStr (t.get? 1))).map
    (fun t => (t.get? 1).getD ""))

/-- The `queryFn` of `useFollowing`: short-circuit on a falsy pubkey;
query the subject's kind 3 events (limit 1), take the most recent, and
extract the `p`-tag values; on failure or no contact list return `[]`. -/
def followingQueryFn (relay : Relay) (pubkey : Option String) : List String :=
  match pubkey with
  | none => []
  | some pk =>
    if pk == "" then []
    else
      match relay [{ kinds := [3], authors := some [pk], limit := some 1 }] with
      | Except.error _ => []
      | Except.ok contactListEvents =>
        match contactListEvents with
        | [] => []
        | e :: es => extractFollowing (mostRecent e es)

/-- The `queryFn` of `useFollowers`: short-circuit on a falsy pubkey;
query all kind 3 events with `#p` on the subject (limit 10000) and return
the distinct authors in first-occurrence order; on failure or no events
return `[]`. -/
def followersQueryFn (relay : Relay) (pubkey : Option String) : List String :=
  match pubkey with
  | none => []
  | some pk =>
    if pk == "" then []
    else
      match relay [{ kinds := [3], pTags := some [pk], limit := some 10000 }] with
      | Except.error _ => []
      | Except.ok contactListEvents =>
        match contactListEvents with
        | [] => []
        | evs => evs.foldl (fun s e => setAdd s e.pubkey) []

/-- The list of hostnames of relays known to support NIP-50 search
(`NIP50_SUPPORTED_RELAYS`). -/
def NIP50_SUPPORTED_RELAYS : List String :=
  [ "relay.divine.video", "relay.nostr.band", "relay.primal.net",
    "relay.nostr.wine", "relay.openvine.co", "relay2.openvine.co",
    "relay3.openvine.co" ]

/-- The `supportsNIP50` check.  The WHATWG URL parser (`new URL(...)` and
`.hostname`) is external platform code, abstracted as `parseHostname`;
`none` models the constructor throwing, which the source catches and maps
to `false`. -/
def supportsNIP50 (parseHostname : String → Option String)
    (relayUrl : String) : Bool :=
  match parseHostname relayUrl with
  | none => false
  | some hostname => NIP50_SUPPORTED_RELAYS.contains hostname

/-- A definition following the spec's words (for comparison with
`extractFollowing`): "the second elements of those tags whose first
element is 'p' and whose second element is present and non-empty, in tag
order". -/
def specFollowingOf (contactList : Event) : List String :=
  (contactList.tags.filter
      (fun t => t.get? 0 == some "p" && truthyStr (t.get? 1))).map
    (fun t => (t.get? 1).getD "")

/-- A relay that answers the stage-one interaction query with `firstRes`
and the dependent kind 5 delete query with `deleteRes`. -/
def twoStageRelay (firstRes deleteRes : List Event) : Relay :=
  fun fs =>
    if fs.any (fun f => f.kinds.contains 5) then Except.ok deleteRes
    else Except.ok firstRes

/-- A relay whose stage-one query succeeds with `firstRes` but whose
kind 5 delete query fails. -/
def deleteStageFailsRelay (msg : String) (firstRes : List Event) : Relay :=
  fun fs =>
    if fs.any (fun f => f.kinds.contains 5) then Except.error msg
    else Except.ok firstRes

/-- Sample viewer like: a kind 7 reaction with content `+`. -/
def samplePlusReaction : Event :=
  ⟨"like1", "viewer1", 7, 100, "+", [["e", "video1"]]⟩

/-- Sample non-positive reaction: kind 7 with content outside the
allow-list. -/
def sampleFireReaction : Event :=
  ⟨"react2", "viewer1", 7, 110, "🔥", [["e", "video1"]]⟩

/-- Sample delete event retracting `samplePlusReaction`. -/
def sampleDeleteEvent : Event :=
  ⟨"del1", "viewer1", 5, 200, "", [["e", "like1"]]⟩

/-- Sample kind 3 contact list with three `p` tags, one of them with an
empty value. -/
def sampleContactListEvent : Event :=
  ⟨"cl1", "alice", 3, 50, "", [["p", "pubA"], ["p", ""], ["p", "pubB"]]⟩

/-- Sample follower event: author `pubA` references `subject`. -/
def followerEventA1 : Event :=
  ⟨"fa1", "pubA", 3, 10, "", [["p", "subject"]]⟩

/-- Sample follower event: author `pubB` references `subject`. -/
def followerEventB : Event :=
  ⟨"fb1", "pubB", 3, 11, "", [["p", "subject"]]⟩

/-- Second sample follower event from author `pubA`. -/
def followerEventA2 : Event :=
  ⟨"fa2", "pubA", 3, 12, "", [["p", "subject"]]⟩

/-- A sample hostname extractor standing in for the WHATWG URL parser. -/
def sampleParseHostname : String → Option String :=
  fun u =>
    if u == "wss://relay.divine.video" then some "relay.divine.video"
    else none

lemma interactionFilters_no_kind5 (videoId upk : String)
    (ref : Option String) :
    ¬ ∃ f ∈ interactionFilters videoId upk ref, 5 ∈ f.kinds := by
  cases ref <;> simp [interactionFilters]

/-- C5: an aggregator query that returns zero matching events yields the
`MetricsSnapshot` with all four counts equal to zero. -/
theorem empty_results_zero_metrics (videoId : String)
    (videoPubkey vineId : Option String) :
    socialMetricsQueryFn (fun _ => Except.ok []) videoId videoPubkey vineId =
      { likeCount := 0, repostCount := 0, viewCount := 0, commentCount := 0 } := rfl

/-- C4: on any failure of the underlying relay query, every operation
returns its documented default instead of propagating the error: the
aggregator returns the all-zero snapshot, the relationship lookup the
all-false/null record (also when only the dependent delete query fails),
and the follow-graph readers the empty list.  In this embedding the
operations are total functions, so no error escapes by construction. -/
theorem failures_degrade_to_defaults (msg : String) (videoId : String)
    (userPubkey videoPubkey vineId pk : Option String) :
    socialMetricsQueryFn (fun _ => Except.error msg) videoId videoPubkey vineId
        = zeroMetrics
    ∧ interactionsQueryFn (fun _ => Except.error msg) videoId userPubkey
        videoPubkey vineId = emptyInteractions
    ∧ (∀ firstRes : List Event,
        interactionsQueryFn (deleteStageFailsRelay msg firstRes) videoId
          userPubkey videoPubkey vineId = emptyInteractions)
    ∧ followingQueryFn (fun _ => Except.error msg) pk = []
    ∧ followersQueryFn (fun _ => Except.error msg) pk = [] := by
  refine ⟨rfl, ?_, ?_, ?_, ?_⟩
  · cases userPubkey with
    | none => rfl
    | some u =>
      by_cases hu : u = ""
      · subst hu; rfl
      · have hbeq : (u == "") = false := by simp [hu]
        simp [interactionsQueryFn, hbeq]
  · intro firstRes
    cases userPubkey with
    | none => rfl
    | some u =>
      by_cases hu : u = ""
      · subst hu; rfl
      · have hbeq : (u == "") = false := by simp [hu]
        have h1 := interactionFilters_no_kind5 videoId u
          (mkAddressableRef videoPubkey vineId)
        simp [interactionsQueryFn, deleteStageFailsRelay, hbeq, h1,
          deleteNostrFilter]
  · cases pk with
    | none => rfl
    | some p =>
      by_cases hp : p = ""
      · subst hp; rfl
      · have hbeq : (p == "") = false := by simp [hp]
        simp [followingQueryFn, hbeq]
  · cases pk with
    | none => rfl
    | some p =>
      by_cases hp : p = ""
      · subst hp; rfl
      · have hbeq : (p == "") = false := by simp [hp]
        simp [followersQueryFn, hbeq]

/-- C8: the computation from relay response to result is deterministic —
two invocations of the same operation with identical inputs and a relay
giving identical responses return identical results. -/
theorem relay_determinism (r1 r2 : Relay) (h : ∀ fs, r1 fs = r2 fs)
    (videoId : String) (userPubkey videoPubkey vineId pk : Option String) :
    socialMetricsQueryFn r1 videoId videoPubkey vineId
        = socialMetricsQueryFn r2 videoId videoPubkey vineId
    ∧ interactionsQueryFn r1 videoId userPubkey videoPubkey vineId
        = interactionsQueryFn r2 videoId userPubkey videoPubkey vineId
    ∧ followingQueryFn r1 pk = followingQueryFn r2 pk
    ∧ followersQueryFn r1 pk = followersQueryFn r2 pk := by
  have heq : r1 = r2 := funext h
  subst heq
  exact ⟨rfl, rfl, rfl, rfl⟩

theorem relay_determinism_witness :
    (∀ fs, twoStageRelay [] [] fs = twoStageRelay [] [] fs)
    ∧ socialMetricsQueryFn (twoStageRelay [] []) "v" none none
        = socialMetricsQueryFn (twoStageRelay [] []) "v" none none :=
  ⟨fun _ => rfl,
   (relay_determinism (twoStageRelay [] []) (twoStageRelay [] [])
      (fun _ => rfl) "v" none none none none).1⟩

/-- C10: `supportsNIP50` is total over arbitrary input strings: it
returns `false` whenever the URL parser rejects the input, and `true`
exactly when the parsed hostname is a member of
`NIP50_SUPPORTED_RELAYS`. -/
theorem supportsNIP50_hostname_membership
    (parseHostname : String → Option String) (s : String) :
    (parseHostname s = none → supportsNIP50 parseHostname s = false)
    ∧ (∀ h, parseHostname s = some h →
        (supportsNIP50 parseHostname s = true ↔ h ∈ NIP50_SUPPORTED_RELAYS)) := by
  constructor
  · intro hp
    simp [supportsNIP50, hp]
  · intro h hp
    simp [supportsNIP50, hp, List.contains_iff_exists_mem_beq, beq_iff_eq]

theorem supportsNIP50_witness :
    (supportsNIP50 sampleParseHostname "not a url" = false)
    ∧ (supportsNIP50 sampleParseHostname "wss://relay.divine.video" = true
        ↔ "relay.divine.video" ∈ NIP50_SUPPORTED_RELAYS) :=
  ⟨(supportsNIP50_hostname_membership sampleParseHostname "not a url").1
      (by decide),
   (supportsNIP50_hostname_membership sampleParseHostname
      "wss://relay.divine.video").2 "relay.divine.video" (by decide)⟩

lemma fst_mapSet (m : List (String × Event)) (k : String) (v : Event) :
    (mapSet m k v).map Prod.fst =
      if m.any (fun p => p.1 == k) then m.map Prod.fst
      else m.map Prod.fst ++ [k] := by
  unfold mapSet
  split
  · rw [List.map_map]
    apply List.map_congr_left
    intro p _
    show (if p.1 == k then (k, v) else p).1 = p.1
    by_cases hp : p.1 = k
    · rw [if_pos (beq_iff_eq.mpr hp)]
      exact hp.symm
    · rw [if_neg (fun hh => hp (beq_iff_eq.mp hh))]
  · simp

lemma mem_keys_mapSet (m : List (String × Event)) (k : String) (v : Event)
    (a : String) :
    a ∈ (mapSet m k v).map Prod.fst ↔ a ∈ m.map Prod.fst ∨ a = k := by
  rw [fst_mapSet]
  split
  · rename_i hany
    constructor
    · exact Or.inl
    · rintro (h | rfl)
      · exact h
      · obtain ⟨p, hp, hpk⟩ := List.any_eq_true.mp hany
        exact List.mem_map.mpr ⟨p, hp, beq_iff_eq.mp hpk⟩
  · simp

lemma nodup_keys_mapSet (m : List (String × Event)) (k : String) (v : Event)
    (h : (m.map Prod.fst).Nodup) : ((mapSet m k v).map Prod.fst).Nodup := by
  rw [fst_mapSet]
  split
  · exact h
  · rename_i hany
    have hk : k ∉ m.map Prod.fst := by
      intro hmem
      obtain ⟨p, hp, hpk⟩ := List.mem_map.mp hmem
      exact hany (List.any_eq_true.mpr ⟨p, hp, beq_iff_eq.mpr hpk⟩)
    simp [List.nodup_append, h, hk]

lemma snd_mapSet_id (m : List (String × Event)) (k : String) (v : Event)
    (h : ∀ p ∈ m, p.1 = p.2.id) (hkv : v.id = k) :
    ∀ p ∈ mapSet m k v, p.1 = p.2.id := by
  unfold mapSet
  split
  · intro p hp
    obtain ⟨q, hq, rfl⟩ := List.mem_map.mp hp
    by_cases hqk : (q.1 == k) = true
    · simp only [hqk, if_true]
      exact hkv.symm
    · simp only [hqk, Bool.false_eq_true, if_false]
      exact h q hq
  · intro p hp
    rcases List.mem_append.mp hp with h1 | h1
    · exact h p h1
    · rw [List.mem_singleton] at h1
      subst h1
      exact hkv.symm

lemma dedupeFold_inv (l : List Event) :
    ∀ m : List (String × Event), (m.map Prod.fst).Nodup →
      (∀ p ∈ m, p.1 = p.2.id) →
      (((l.foldl (fun m e => mapSet m e.id e) m).map Prod.fst).Nodup
       ∧ (∀ p ∈ l.foldl (fun m e => mapSet m e.id e) m, p.1 = p.2.id)
       ∧ ∀ a, (a ∈ (l.foldl (fun m e => mapSet m e.id e) m).map Prod.fst ↔
           a ∈ m.map Prod.fst ∨ ∃ e ∈ l, e.id = a)) := by
  induction l with
  | nil =>
    intro m h1 h2
    exact ⟨h1, h2, by simp⟩
  | cons e es ih =>
    intro m h1 h2
    have h1' := nodup_keys_mapSet m e.id e h1
    have h2' := snd_mapSet_id m e.id e h2 rfl
    obtain ⟨a1, a2, a3⟩ := ih (mapSet m e.id e) h1' h2'
    refine ⟨a1, a2, ?_⟩
    intro a
    rw [List.foldl_cons, a3 a, mem_keys_mapSet]
    simp only [List.mem_cons]
    constructor
    · rintro ((h | rfl) | ⟨e', he', hid⟩)
      · exact Or.inl h
      · exact Or.inr ⟨e, Or.inl rfl, rfl⟩
      · exact Or.inr ⟨e', Or.inr he', hid⟩
    · rintro (h | ⟨e', (rfl | he'), hid⟩)
      · exact Or.inl (Or.inl h)
      · exact Or.inl (Or.inr hid.symm)
      · exact Or.inr ⟨e', he', hid⟩

lemma dedupeById_ids (l : List Event) :
    ((dedupeById l).map Event.id).Nodup
    ∧ ∀ a, (a ∈ (dedupeById l).map Event.id ↔ ∃ e ∈ l, e.id = a) := by
  obtain ⟨h1, h2, h3⟩ := dedupeFold_inv l [] (by simp) (by simp)
  have hmap : (dedupeById l).map Event.id =
      (l.foldl (fun m e => mapSet m e.id e) []).map Prod.fst := by
    unfold dedupeById
    rw [List.map_map]
    apply List.map_congr_left
    intro p hp
    exact (h2 p hp).symm
  refine ⟨by rw [hmap]; exact h1, ?_⟩
  intro a
  rw [hmap, h3 a]
  simp

/-- C3: when the same event identifier occurs several times in the list
the relay returns for one aggregator call (e.g. because two filters both
matched it), that event contributes exactly once to the resulting
snapshot: the aggregator counts over `dedupeById`, whose identifiers are
pairwise distinct, and every returned event is represented by exactly one
deduplicated event with its identifier. -/
theorem aggregator_counts_each_id_once (videoId : String)
    (videoPubkey vineId : Option String) (l : List Event) :
    socialMetricsQueryFn (fun _ => Except.ok l) videoId videoPubkey vineId
        = computeMetrics (dedupeById l)
    ∧ ((dedupeById l).map Event.id).Nodup
    ∧ ∀ e ∈ l, ∃! d, d ∈ dedupeById l ∧ d.id = e.id := by
  refine ⟨rfl, (dedupeById_ids l).1, ?_⟩
  intro e he
  have hmem : e.id ∈ (dedupeById l).map Event.id :=
    ((dedupeById_ids l).2 e.id).mpr ⟨e, he, rfl⟩
  obtain ⟨d, hd, hde⟩ := List.mem_map.mp hmem
  refine ⟨d, ⟨hd, hde⟩, ?_⟩
  rintro d' ⟨hd', hde'⟩
  exact List.inj_on_of_nodup_map (dedupeById_ids l).1 hd' hd
    (by rw [hde', hde])

theorem aggregator_counts_each_id_once_witness :
    ∃! d, d ∈ dedupeById [samplePlusReaction, samplePlusReaction]
      ∧ d.id = samplePlusReaction.id :=
  (aggregator_counts_each_id_once "video1" none none
      [samplePlusReaction, samplePlusReaction]).2.2 samplePlusReaction
    (by simp)

/-- C2: a kind 7 reaction event whose content is outside the allow-list
`'+'`, `'❤️'`, `'👍'` increments neither `likeCount` nor sets `hasLiked`;
a kind 7 reaction event with allow-listed content does both. -/
theorem reaction_allowlist_classification (e : Event) (l : List Event)
    (hk : e.kind = 7) :
    (isPositiveReactionContent e = false →
       (computeMetrics (l ++ [e])).likeCount = (computeMetrics l).likeCount
       ∧ (processInteractions [e] []).hasLiked = false)
    ∧ (isPositiveReactionContent e = true →
       (computeMetrics (l ++ [e])).likeCount = (computeMetrics l).likeCount + 1
       ∧ (processInteractions [e] []).hasLiked = true) := by
  have hfold : computeMetrics (l ++ [e]) = classifyEvent (computeMetrics l) e := by
    unfold computeMetrics
    rw [List.foldl_append]
    rfl
  constructor
  · intro hneg
    constructor
    · rw [hfold]
      simp [classifyEvent, hk, hneg]
    · simp [processInteractions, interactionStep, emptyInteractions, hk, hneg]
  · intro hpos
    constructor
    · rw [hfold]
      simp [classifyEvent, hk, hpos]
    · simp [processInteractions, interactionStep, emptyInteractions, hk, hpos]

theorem reaction_allowlist_witness :
    ((computeMetrics ([] ++ [sampleFireReaction])).likeCount
        = (computeMetrics []).likeCount
      ∧ (processInteractions [sampleFireReaction] []).hasLiked = false)
    ∧ ((computeMetrics ([] ++ [samplePlusReaction])).likeCount
        = (computeMetrics []).likeCount + 1
      ∧ (processInteractions [samplePlusReaction] []).hasLiked = true) :=
  ⟨(reaction_allowlist_classification sampleFireReaction [] rfl).1 (by decide),
   (reaction_allowlist_classification samplePlusReaction [] rfl).2 (by decide)⟩

lemma interactionsQueryFn_some (relay : Relay) (videoId u : String)
    (videoPubkey vineId : Option String) :
    interactionsQueryFn relay videoId (some u) videoPubkey vineId =
      if u == "" then emptyInteractions
      else
        match relay (interactionFilters videoId u
            (mkAddressableRef videoPubkey vineId)) with
        | Except.error _ => emptyInteractions
        | Except.ok allEvents =>
          match relay [deleteNostrFilter u
              ((dedupeById allEvents).map Event.id)] with
          | Except.error _ => emptyInteractions
          | Except.ok deleteEvents =>
            processInteractions (dedupeById allEvents)
              (collectDeletedIds deleteEvents) := rfl

lemma interactionStep_inv (d : List String) (acc : InteractionRecord)
    (e : Event)
    (h1 : acc.hasLiked = acc.likeEventId.isSome)
    (h2 : acc.hasReposted = acc.repostEventId.isSome) :
    (interactionStep d acc e).hasLiked
        = (interactionStep d acc e).likeEventId.isSome
    ∧ (interactionStep d acc e).hasReposted
        = (interactionStep d acc e).repostEventId.isSome := by
  unfold interactionStep
  split
  · exact ⟨h1, h2⟩
  · by_cases hL : (e.kind == 7 && isPositiveReactionContent e) = true <;>
      by_cases hR : (e.kind == 6) = true <;>
      simp [hL, hR, h1, h2]

lemma foldl_interactionStep_inv (d : List String) (events : List Event) :
    ∀ acc : InteractionRecord,
      acc.hasLiked = acc.likeEventId.isSome →
      acc.hasReposted = acc.repostEventId.isSome →
      ((events.foldl (interactionStep d) acc).hasLiked
          = (events.foldl (interactionStep d) acc).likeEventId.isSome
       ∧ (events.foldl (interactionStep d) acc).hasReposted
          = (events.foldl (interactionStep d) acc).repostEventId.isSome) := by
  induction events with
  | nil =>
    intro acc h1 h2
    exact ⟨h1, h2⟩
  | cons e es ih =>
    intro acc h1 h2
    rw [List.foldl_cons]
    obtain ⟨g1, g2⟩ := interactionStep_inv d acc e h1 h2
    exact ih _ g1 g2

lemma processInteractions_inv (events : List Event) (d : List String) :
    (processInteractions events d).hasLiked
        = (processInteractions events d).likeEventId.isSome
    ∧ (processInteractions events d).hasReposted
        = (processInteractions events d).repostEventId.isSome :=
  foldl_interactionStep_inv d events emptyInteractions rfl rfl

/-- C9: every `InteractionRecord` returned by the relationship lookup, on
every return path, has `hasLiked` true exactly when `likeEventId` is
non-null and `hasReposted` true exactly when `repostEventId` is
non-null. -/
theorem interaction_record_id_consistency (relay : Relay) (videoId : String)
    (userPubkey videoPubkey vineId : Option String) :
    (interactionsQueryFn relay videoId userPubkey videoPubkey vineId).hasLiked
      = (interactionsQueryFn relay videoId userPubkey videoPubkey
          vineId).likeEventId.isSome
    ∧ (interactionsQueryFn relay videoId userPubkey videoPubkey
          vineId).hasReposted
      = (interactionsQueryFn relay videoId userPubkey videoPubkey
          vineId).repostEventId.isSome := by
  cases userPubkey with
  | none => exact ⟨rfl, rfl⟩
  | some u =>
    by_cases hu : (u == "") = true
    · simp [interactionsQueryFn, hu, emptyInteractions]
    · rcases hrel : relay (interactionFilters videoId u
          (mkAddressableRef videoPubkey vineId)) with msg | allEvents
      · simp [interactionsQueryFn, hu, hrel, emptyInteractions]
      · rcases hrel2 : relay [deleteNostrFilter u
            ((dedupeById allEvents).map Event.id)] with msg | deleteEvents
        · simp [interactionsQueryFn, hu, hrel, hrel2, emptyInteractions]
        · simp only [interactionsQueryFn, hu, hrel, hrel2,
            Bool.false_eq_true, if_false]
          exact processInteractions_inv (dedupeById allEvents)
            (collectDeletedIds deleteEvents)

lemma mem_setAdd (s : List String) (x a : String) :
    a ∈ setAdd s x ↔ a ∈ s ∨ a = x := by
  unfold setAdd
  split
  · rename_i hc
    constructor
    · exact Or.inl
    · rintro (h1 | rfl)
      · exact h1
      · obtain ⟨a', ha', hbeq⟩ := List.contains_iff_exists_mem_beq.mp hc
        rwa [beq_iff_eq.mp hbeq]
  · simp

lemma nodup_setAdd (s : List String) (x : String) (h : s.Nodup) :
    (setAdd s x).Nodup := by
  unfold setAdd
  split
  · exact h
  · rename_i hc
    have hx : x ∉ s := by
      intro hmem
      exact hc (List.contains_iff_exists_mem_beq.mpr ⟨x, hmem, beq_self_eq_true x⟩)
    simp [List.nodup_append, h, hx]

lemma followers_fold (evs : List Event) :
    ∀ s : List String, s.Nodup →
      ((evs.foldl (fun s e => setAdd s e.pubkey) s).Nodup
       ∧ ∀ a, (a ∈ evs.foldl (fun s e => setAdd s e.pubkey) s ↔
           a ∈ s ∨ ∃ e ∈ evs, e.pubkey = a)) := by
  induction evs with
  | nil =>
    intro s hs
    exact ⟨hs, by simp⟩
  | cons e es ih =>
    intro s hs
    obtain ⟨h1, h2⟩ := ih (setAdd s e.pubkey) (nodup_setAdd s e.pubkey hs)
    refine ⟨h1, ?_⟩
    intro a
    rw [List.foldl_cons, h2 a, mem_setAdd]
    simp only [List.mem_cons]
    constructor
    · rintro ((h | rfl) | ⟨e', he', hid⟩)
      · exact Or.inl h
      · exact Or.inr ⟨e, Or.inl rfl, rfl⟩
      · exact Or.inr ⟨e', Or.inr he', hid⟩
    · rintro (h | ⟨e', (rfl | he'), hid⟩)
      · exact Or.inl (Or.inl h)
      · exact Or.inl (Or.inr hid.symm)
      · exact Or.inr ⟨e', he', hid⟩

lemma followersQueryFn_ok (pk : String) (hpk : ¬((pk == "") = true))
    (evs : List Event) :
    followersQueryFn (fun _ => Except.ok evs) (some pk)
      = evs.foldl (fun s e => setAdd s e.pubkey) [] := by
  simp only [followersQueryFn]
  rw [if_neg hpk]
  cases evs with
  | nil => rfl
  | cons e es => rfl

/-- C7: the followers list is the set of distinct authors of the returned
relationship-list events, each appearing exactly once; in particular
events from authors `pubA`, `pubB`, `pubA` yield exactly `[pubA, pubB]`. -/
theorem followers_distinct_authors (pk : String) (hpk : pk ≠ "")
    (evs : List Event) :
    (followersQueryFn (fun _ => Except.ok evs) (some pk)).Nodup
    ∧ (∀ a, a ∈ followersQueryFn (fun _ => Except.ok evs) (some pk) ↔
        ∃ e ∈ evs, e.pubkey = a)
    ∧ followersQueryFn
        (fun _ => Except.ok [followerEventA1, followerEventB, followerEventA2])
        (some pk) = ["pubA", "pubB"] := by
  have hbeq : ¬((pk == "") = true) := by simp [hpk]
  obtain ⟨h1, h2⟩ := followers_fold evs [] List.nodup_nil
  refine ⟨?_, ?_, ?_⟩
  · rw [followersQueryFn_ok pk hbeq]
    exact h1
  · intro a
    rw [followersQueryFn_ok pk hbeq, h2 a]
    simp
  · rw [followersQueryFn_ok pk hbeq]
    rfl

theorem followers_distinct_authors_witness :
    followersQueryFn
      (fun _ => Except.ok [followerEventA1, followerEventB, followerEventA2])
      (some "subject") = ["pubA", "pubB"] :=
  (followers_distinct_authors "subject" (by decide) []).2.2

lemma extractFollowing_eq_spec (ev : Event) :
    extractFollowing ev = specFollowingOf ev := by
  unfold extractFollowing specFollowingOf
  rw [List.filter_filter]
  congr 1
  apply List.filter_congr
  intro t _
  exact Bool.and_comm _ _

lemma followingQueryFn_ok (pk : String) (hpk : ¬((pk == "") = true))
    (e : Event) (es : List Event) :
    followingQueryFn (fun _ => Except.ok (e :: es)) (some pk)
      = extractFollowing (mostRecent e es) := by
  simp only [followingQueryFn]
  rw [if_neg hpk]

/-- C6: the following list returned for the most-recent relationship-list
event consists of exactly the second elements of those tags whose first
element is `p` and whose second element is present and non-empty, in tag
order; in particular an event with three `p` tags — two with values, one
empty — yields exactly those two values in tag order. -/
theorem following_extracts_p_tag_values (pk : String) (hpk : pk ≠ "")
    (e : Event) (es : List Event) :
    followingQueryFn (fun _ => Except.ok (e :: es)) (some pk)
        = specFollowingOf (mostRecent e es)
    ∧ followingQueryFn (fun _ => Except.ok [sampleContactListEvent]) (some pk)
        = ["pubA", "pubB"] := by
  have hbeq : ¬((pk == "") = true) := by simp [hpk]
  constructor
  · rw [followingQueryFn_ok pk hbeq, extractFollowing_eq_spec]
  · rw [followingQueryFn_ok pk hbeq]
    rfl

theorem following_extracts_p_tag_values_witness :
    followingQueryFn (fun _ => Except.ok [sampleContactListEvent])
        (some "alice") = ["pubA", "pubB"]
    ∧ specFollowingOf (mostRecent sampleContactListEvent []) = ["pubA", "pubB"] :=
  ⟨(following_extracts_p_tag_values "alice" (by decide)
      sampleContactListEvent []).2,
   by decide⟩

lemma mem_addTagDeleted_of_mem (s : List String) (t : List String)
    (a : String) (h : a ∈ s) : a ∈ addTagDeleted s t := by
  unfold addTagDeleted
  split
  · exact (mem_setAdd _ _ _).mpr (Or.inl h)
  · exact h

lemma mem_foldl_addTag_of_mem (ts : List (List String)) :
    ∀ s a, a ∈ s → a ∈ ts.foldl addTagDeleted s := by
  induction ts with
  | nil => intro s a h; exact h
  | cons t ts ih =>
    intro s a h
    rw [List.foldl_cons]
    exact ih _ a (mem_addTagDeleted_of_mem s t a h)

lemma mem_foldl_addTag (t : List String) (v : String)
    (h0 : t.get? 0 = some "e") (h1 : t.get? 1 = some v) (hv : v ≠ "") :
    ∀ ts : List (List String), t ∈ ts → ∀ s, v ∈ ts.foldl addTagDeleted s := by
  intro ts
  induction ts with
  | nil => intro ht; exact absurd ht (List.not_mem_nil t)
  | cons t0 ts ih =>
    intro ht s
    rw [List.foldl_cons]
    rcases List.mem_cons.mp ht with rfl | hmem
    · apply mem_foldl_addTag_of_mem
      have hcond : (t.get? 0 == some "e" && truthyStr (t.get? 1)) = true := by
        rw [h0, h1]
        simp [truthyStr, hv]
      unfold addTagDeleted
      rw [if_pos hcond]
      have hval : (t.get? 1).getD "" = v := by rw [h1]; rfl
      rw [hval]
      exact (mem_setAdd _ _ _).mpr (Or.inr rfl)
    · exact ih hmem _

lemma mem_foldl_addEvent_of_mem (ds : List Event) :
    ∀ s a, a ∈ s → a ∈ ds.foldl addEventDeleted s := by
  induction ds with
  | nil => intro s a h; exact h
  | cons d ds ih =>
    intro s a h
    rw [List.foldl_cons]
    exact ih _ a (mem_foldl_addTag_of_mem d.tags s a h)

lemma mem_collectDeletedIds (de : Event) (t : List String) (v : String)
    (ht : t ∈ de.tags) (h0 : t.get? 0 = some "e") (h1 : t.get? 1 = some v)
    (hv : v ≠ "") :
    ∀ ds : List Event, de ∈ ds → v ∈ collectDeletedIds ds := by
  suffices h : ∀ ds : List Event, de ∈ ds → ∀ s, v ∈ ds.foldl addEventDeleted s by
    intro ds hde
    exact h ds hde []
  intro ds
  induction ds with
  | nil => intro hde; exact absurd hde (List.not_mem_nil de)
  | cons d0 ds ih =>
    intro hde s
    rw [List.foldl_cons]
    rcases List.mem_cons.mp hde with rfl | hmem
    · exact mem_foldl_addEvent_of_mem ds _ v
        (mem_foldl_addTag t v h0 h1 hv de.tags ht s)
    · exact ih hmem _

/-- C1: deletion netting — for a viewer with a positive-reaction (like)
event `E` on the target and a later delete event `D` by the same viewer
whose `e` tags reference `E`'s identifier, the relationship lookup
reports `hasLiked = false`. -/
theorem deletion_netting_reports_unliked (videoId upk : String)
    (videoPubkey vineId : Option String) (E D : Event) (ds : List Event)
    (hupk : upk ≠ "") (hkE : E.kind = 7)
    (hpos : isPositiveReactionContent E = true)
    (hidE : E.id ≠ "") (hEauthor : E.pubkey = upk) (hDauthor : D.pubkey = upk)
    (hlater : E.created_at < D.created_at)
    (htag : ["e", E.id] ∈ D.tags) (hD : D ∈ ds) :
    (interactionsQueryFn (twoStageRelay [E] ds) videoId (some upk)
        videoPubkey vineId).hasLiked = false := by
  have hbeq : ¬((upk == "") = true) := by simp [hupk]
  have h1 : twoStageRelay [E] ds (interactionFilters videoId upk
      (mkAddressableRef videoPubkey vineId)) = Except.ok [E] := by
    unfold twoStageRelay
    rw [if_neg]
    intro hany
    obtain ⟨f, hf, h5⟩ := List.any_eq_true.mp hany
    obtain ⟨a, ha, hb⟩ := List.contains_iff_exists_mem_beq.mp h5
    refine interactionFilters_no_kind5 videoId upk
      (mkAddressableRef videoPubkey vineId) ⟨f, hf, ?_⟩
    rw [beq_iff_eq.mp hb]
    exact ha
  have h2 : twoStageRelay [E] ds [deleteNostrFilter upk [E.id]]
      = Except.ok ds := by
    unfold twoStageRelay
    rw [if_pos]
    simp [deleteNostrFilter]
  have hdel : E.id ∈ collectDeletedIds ds :=
    mem_collectDeletedIds D ["e", E.id] E.id htag rfl rfl hidE ds hD
  have hcontains : (collectDeletedIds ds).contains E.id = true :=
    List.contains_iff_exists_mem_beq.mpr ⟨E.id, hdel, beq_self_eq_true E.id⟩
  have hded : dedupeById [E] = [E] := rfl
  simp only [interactionsQueryFn, hbeq, if_false, h1, hded]
  simp [h2, processInteractions, interactionStep, hdel, emptyInteractions]

theorem deletion_netting_witness :
    (interactionsQueryFn
        (twoStageRelay [samplePlusReaction] [sampleDeleteEvent])
        "video1" (some "viewer1") none none).hasLiked = false :=
  deletion_netting_reports_unliked "video1" "viewer1" none none
    samplePlusReaction sampleDeleteEvent [sampleDeleteEvent]
    (by decide) rfl (by decide) (by decide) rfl rfl (by decide)
    (by decide) (by decide)
